import Mathlib

/-!
Shallow embedding of the Stagehand n8n node
(src/nodes/Stagehand/Stagehand.node.ts) and proofs about it.

The embedding covers the two subsystems of the node's `execute` method:
the pure helpers (`sanitizeMessages`, `extractUsageFromMessages`,
instruction parsing, `fieldsToZodSchema`) and the per-item session driver
(session open via `stagehand.init()`, optional `page.goto`, a
`try`/`catch`/`finally` around operation dispatch with `stagehand.close()`
in the `finally`, and the sequential per-item loop that accumulates
`results`).

JavaScript string builtins (`String.prototype.split('\n')`,
`String.prototype.trim`, `String.prototype.includes`, the `||` operator)
are modelled as executable Lean functions over character lists so that all
definitions evaluate inside the kernel.
-/

namespace StagehandNode

/-- Whitespace recognised when trimming, matching the characters relevant
to the node's inputs (`String.prototype.trim` trims these and more). -/
def isWsChar (c : Char) : Bool :=
  c = ' ' || c = '\t' || c = '\n' || c = '\r'

/-- Trim whitespace from both ends of a character list. -/
def trimChars (l : List Char) : List Char :=
  ((l.dropWhile isWsChar).reverse.dropWhile isWsChar).reverse

/-- Model of JavaScript `s.trim()`. -/
def jsTrim (s : String) : String := String.mk (trimChars s.data)

/-- Model of JavaScript `s.split('\n')` on the character list: the result
is always non-empty, and a trailing newline yields a trailing empty
segment, exactly as in JavaScript. -/
def splitNlChars : List Char → List (List Char)
  | [] => [[]]
  | c :: rest =>
    let r := splitNlChars rest
    if c = '\n' then [] :: r
    else
      match r with
      | [] => [[c]]
      | l :: ls => (c :: l) :: ls

/-- Model of JavaScript `s.split('\n')`. -/
def jsSplitNewline (s : String) : List String :=
  (splitNlChars s.data).map String.mk

/-- Whether `pat` starts the list `l`. -/
def startsWithChars : List Char → List Char → Bool
  | [], _ => true
  | _ :: _, [] => false
  | a :: as, b :: bs => a = b && startsWithChars as bs

/-- Whether `pat` occurs as a contiguous sublist of `l`. -/
def hasSubChars (pat : List Char) : List Char → Bool
  | [] => pat.isEmpty
  | c :: rest => startsWithChars pat (c :: rest) || hasSubChars pat rest

/-- Model of JavaScript `s.includes(pat)`. -/
def jsIncludes (s pat : String) : Bool := hasSubChars pat.data s.data

/-- Model of the JavaScript expression `a || b` on strings, where the
empty string is falsy. -/
def jsOrString (a b : String) : String := if a = "" then b else a

/-! ## Log messages

`LogLine` is the shape of the log messages the node reads: `category`,
`message`, `level`, and an optional `auxiliary.response.value` payload.
`extractUsageFromMessages` runs `JSON.parse` (an external builtin) on the
raw payload string; the payload is therefore modelled as the pair of its
raw text and the outcome that `JSON.parse` has on it: either the parse
throws (`malformed`, which also covers the falsy empty string skipped by
the `msg.auxiliary?.response?.value` check) or it succeeds, with the
parsed value's `usage` member either absent/falsy or an object carrying
any subset of the six recognised counter keys. -/

/-- The usage object's recognised counter keys; each key may be absent. -/
structure UsageKeysRaw where
  prompt_tokens : Option Nat
  promptTokens : Option Nat
  completion_tokens : Option Nat
  completionTokens : Option Nat
  total_tokens : Option Nat
  totalTokens : Option Nat
deriving DecidableEq, Repr

/-- Outcome of `JSON.parse` on an `auxiliary.response.value` string,
paired with the raw text (used when the whole message is serialized). -/
inductive AuxPayload where
  | malformed (text : String)
  | parsed (usage : Option UsageKeysRaw) (text : String)
deriving DecidableEq, Repr

/-- The raw text of an auxiliary payload, as it appears when the message
is serialized by `JSON.stringify`. -/
def AuxPayload.rawText : AuxPayload → String
  | .malformed t => t
  | .parsed _ t => t

/-- The `auxiliary.response` entry with its `value` payload. -/
structure AuxEntry where
  value : AuxPayload
deriving DecidableEq, Repr

/-- The `auxiliary` member of a log line, with its optional `response`
key (the only key the node reads). -/
structure AuxData where
  response : Option AuxEntry
deriving DecidableEq, Repr

/-- A log message produced by the automation engine. -/
structure LogLine where
  category : String
  message : String
  level : Nat
  auxiliary : Option AuxData
deriving DecidableEq, Repr

/-- Escape one character as inside a JSON string literal. -/
def escapeJsonChar (c : Char) : String :=
  if c = '\x22' then "\\\x22"
  else if c = '\\' then "\\\\"
  else String.singleton c

/-- Escape a string as inside a JSON string literal. -/
def escapeJson (s : String) : String :=
  String.join (s.data.map escapeJsonChar)

/-- Quote a string as a JSON string literal. -/
def quoteJson (s : String) : String :=
  "\x22" ++ escapeJson s ++ "\x22"

/-- Serialization of the optional `auxiliary` member. -/
def serializeAux : Option AuxData → String
  | none => ""
  | some a =>
    ",\x22auxiliary\x22:\x7b" ++
      (match a.response with
        | none => ""
        | some e => "\x22response\x22:\x7b\x22value\x22:" ++
            quoteJson e.value.rawText ++ "\x7d") ++ "\x7d"

/-- Model of `JSON.stringify(msg)` for a log message. -/
def serializeLogLine (m : LogLine) : String :=
  "\x7b\x22category\x22:" ++ quoteJson m.category ++
    ",\x22message\x22:" ++ quoteJson m.message ++
    ",\x22level\x22:" ++ toString m.level ++
    serializeAux m.auxiliary ++ "\x7d"

/-- The projection of a retained log message to its output fields. -/
structure SanitizedMsg where
  category : String
  message : String
  level : Nat
deriving DecidableEq, Repr

/-- Projection applied by `sanitizeMessages` to each retained message. -/
def projMsg (m : LogLine) : SanitizedMsg :=
  ⟨m.category, m.message, m.level⟩

/-- The filter predicate of `sanitizeMessages`: serialize the message and
keep it only when the string has no image/screenshot marker and is
shorter than 5000 characters. -/
def keepMsg (msg : LogLine) : Bool :=
  let str := serializeLogLine msg
  !jsIncludes str "image" && !jsIncludes str "screenshot" &&
    decide (str.length < 5000)

/-- Embedding of `sanitizeMessages`: filter out messages containing
image or screenshot data or whose serialized form is 5000 characters or
longer, then map each kept message to category, message and level. -/
def sanitizeMessages (messages : List LogLine) : List SanitizedMsg :=
  (messages.filter keepMsg).map projMsg

/-- Usage totals produced by `extractUsageFromMessages` (its output keys
are snake_case). -/
structure UsageTotals where
  prompt_tokens : Nat
  completion_tokens : Nat
  total_tokens : Nat
deriving DecidableEq, Repr

/-- JavaScript truthiness of an optional numeric field: `0` and an
absent key are falsy. -/
def jsTruthyNat : Option Nat → Option Nat
  | some 0 => none
  | some (n + 1) => some (n + 1)
  | none => none

/-- Model of the JavaScript expression `a || b || 0` on optional numeric
fields. -/
def jsOrNat (a b : Option Nat) : Nat :=
  match jsTruthyNat a with
  | some n => n
  | none =>
    match jsTruthyNat b with
    | some n => n
    | none => 0

/-- Contribution of a single message inside the `extractUsageFromMessages`
loop: the message must have category `aisdk` and a truthy
`auxiliary?.response?.value`, the payload must parse and its `usage`
member must be truthy; the three counters are then read accepting both
snake_case and camelCase key spellings. Anything else (including a
payload on which `JSON.parse` throws) contributes nothing. -/
def msgUsage (msg : LogLine) : Option (Nat × Nat × Nat) :=
  if msg.category = "aisdk" then
    match msg.auxiliary with
    | none => none
    | some aux =>
      match aux.response with
      | none => none
      | some entry =>
        match entry.value with
        | .malformed _ => none
        | .parsed none _ => none
        | .parsed (some u) _ =>
          some (jsOrNat u.prompt_tokens u.promptTokens,
                jsOrNat u.completion_tokens u.completionTokens,
                jsOrNat u.total_tokens u.totalTokens)
  else none

/-- The loop state of `extractUsageFromMessages`: the three running
totals and the `found` flag. -/
structure UsageAcc where
  totalPrompt : Nat
  totalCompletion : Nat
  totalTokens : Nat
  found : Bool
deriving DecidableEq, Repr

/-- One iteration of the `extractUsageFromMessages` loop. -/
def usageStep (acc : UsageAcc) (msg : LogLine) : UsageAcc :=
  match msgUsage msg with
  | none => acc
  | some (p, c, t) =>
    ⟨acc.totalPrompt + p, acc.totalCompletion + c, acc.totalTokens + t, true⟩

/-- Embedding of `extractUsageFromMessages`: fold the loop over the
messages starting from zero totals and `found = false`; return the
totals when some message yielded a usage object, `null` otherwise. -/
def extractUsageFromMessages (messages : List LogLine) : Option UsageTotals :=
  let acc := messages.foldl usageStep ⟨0, 0, 0, false⟩
  if acc.found then
    some ⟨acc.totalPrompt, acc.totalCompletion, acc.totalTokens⟩
  else none

/-- Componentwise sum of a list of counter triples. -/
def sum3 : List (Nat × Nat × Nat) → Nat × Nat × Nat
  | [] => (0, 0, 0)
  | (a, b, c) :: rest =>
    let s := sum3 rest
    (a + s.1, b + s.2.1, c + s.2.2)

/-! ## Instruction parsing -/

/-- Embedding of the `act` branch's instruction parsing:
`instructionsRaw.split('\n').map(s => s.trim()).filter(s => s.length > 0)`. -/
def parseActInstructions (instructionsRaw : String) : List String :=
  ((jsSplitNewline instructionsRaw).map jsTrim).filter
    (fun s => decide (0 < s.length))

/-- Embedding of the `extract`/`observe` branches' instruction choice:
`instructionsRaw.split('\n')[0]?.trim() || ''`. -/
def firstLineInstruction (instructionsRaw : String) : String :=
  jsOrString (jsTrim ((jsSplitNewline instructionsRaw).headD "")) ""

/-- Modelled from the spec (the comparison side for the refinement in
C4): "input is the first non-empty line of the instructions block" —
split on newlines, trim, and take the first line that is non-empty. -/
def specFirstNonEmptyLine (instructionsRaw : String) : String :=
  (((jsSplitNewline instructionsRaw).map jsTrim).filter
    (fun s => decide (0 < s.length))).headD ""

/-- Sequential execution of the parsed `act` instructions against a
session: `act` consumes one instruction and the current session state and
returns the instruction's result and the next state; the loop collects
`(instruction, result)` pairs in execution order and threads the state. -/
def runAct {σ α : Type} (act : String → σ → α × σ) :
    σ → List String → List (String × α) × σ
  | s, [] => ([], s)
  | s, instr :: rest =>
    let r := act instr s
    let tail := runAct act r.2 rest
    ((instr, r.1) :: tail.1, tail.2)

/-- The session state after executing a list of instructions in order. -/
def stateAfter {σ α : Type} (act : String → σ → α × σ) (s : σ)
    (l : List String) : σ :=
  l.foldl (fun st i => (act i st).2) s

/-! ## Field-list schema resolution -/

/-- One entry of the field list (the `Field` type of the source). -/
structure Field where
  fieldName : String
  fieldType : String
  optional : Bool
deriving DecidableEq, Repr

/-- Shallow model of the zod types `fieldsToZodSchema` constructs. -/
inductive ZType where
  | zstring
  | znumber
  | zboolean
  | zarrayAny
  | zobjectPassthrough
  | zany
  | zoptional (inner : ZType)
deriving DecidableEq, Repr

/-- The `switch (fieldType)` of `fieldsToZodSchema`: map a field kind to
its zod type, defaulting to `z.any()` for unknown kinds. -/
def typeForKind (fieldType : String) : ZType :=
  if fieldType = "string" then ZType.zstring
  else if fieldType = "number" then ZType.znumber
  else if fieldType = "boolean" then ZType.zboolean
  else if fieldType = "array" then ZType.zarrayAny
  else if fieldType = "object" then ZType.zobjectPassthrough
  else ZType.zany

/-- JavaScript object-property assignment `shape[k] = v` on an
insertion-ordered record modelled as an association list: an existing
key keeps its position and gets the new value, a new key is appended. -/
def setKey (shape : List (String × ZType)) (k : String) (v : ZType) :
    List (String × ZType) :=
  if shape.any (fun p => p.1 == k) then
    shape.map (fun p => if p.1 == k then (k, v) else p)
  else shape ++ [(k, v)]

/-- The entry `fieldsToZodSchema` assigns for one field: the type for its
kind, wrapped in `.optional()` when the field is marked optional. -/
def fieldEntry (f : Field) : String × ZType :=
  (f.fieldName,
    if f.optional then ZType.zoptional (typeForKind f.fieldType)
    else typeForKind f.fieldType)

/-- Embedding of `fieldsToZodSchema`: build the shape record by assigning
each field's entry in order, then wrap it in `z.object` (the resulting
object shape is the association list itself). -/
def fieldsToZodSchema (fields : List Field) : List (String × ZType) :=
  fields.foldl (fun shape f => setKey shape f.fieldName (fieldEntry f).2) []

/-! ## Session driver and batch loop

The driver model follows the control flow of `execute` exactly:
`stagehand.init()` and the optional `page.goto(pageUrl)` run before the
`try` block, the operation dispatch runs inside `try`/`catch` (a dispatch
error becomes the item's error record), and `stagehand.close()` runs in
`finally` with no surrounding handler, so a close failure propagates.
The outcomes of the external calls for one item are an environment:
whether `init`, `goto`, the dispatch and `close` succeed, and which log
lines the engine emits through the logger callback. -/

/-- The four supported operation tags. -/
inductive Op where
  | act
  | extract
  | observe
  | agent
deriving DecidableEq, Repr

/-- The per-item configuration values the driver reads. -/
structure Config where
  operation : Op
  pageUrl : String
  logMessages : Bool
deriving DecidableEq, Repr

/-- Outcomes of the external calls made while processing one item. -/
structure ItemEnv where
  initOk : Bool
  gotoOk : Bool
  dispatchOk : Bool
  closeOk : Bool
  emitted : List LogLine
deriving DecidableEq, Repr

/-- Errors that escape the per-item processing. -/
inductive DriverErr where
  | connection
  | navigation
  | closeFailure
deriving DecidableEq, Repr

/-- Lifecycle events recorded while processing one item. -/
inductive Event where
  | inited
  | closeCalled
deriving DecidableEq, Repr

/-- The output record pushed for one item: the operation tag, whether the
record is the catch-path error record, the agent branch's `usage` field,
and the optional sanitized messages. -/
structure OutputRecord where
  operation : Op
  hasError : Bool
  usage : Option UsageTotals
  messagesOut : Option (List SanitizedMsg)
deriving DecidableEq, Repr

/-- The item's captured log buffer: the `messages` array is filled only
through the logger callback, which is installed only when `logMessages`
is set; otherwise the buffer stays empty for the whole item. -/
def capturedMessages (cfg : Config) (env : ItemEnv) : List LogLine :=
  if cfg.logMessages then env.emitted else []

/-- The record built inside `try` (dispatch succeeded) or inside `catch`
(dispatch threw): the success record of the agent operation carries the
aggregated usage; the error record carries no payload and no usage. -/
def mkRecord (cfg : Config) (env : ItemEnv) : OutputRecord :=
  let captured := capturedMessages cfg env
  let msgsOut := if cfg.logMessages then some (sanitizeMessages captured) else none
  if env.dispatchOk then
    ⟨cfg.operation, false,
      (if cfg.operation = Op.agent then extractUsageFromMessages captured
       else none),
      msgsOut⟩
  else
    ⟨cfg.operation, true, none, msgsOut⟩

/-- Embedding of one iteration of the `execute` loop.  `init` runs first,
outside the `try`: if it throws, nothing else runs.  The `goto` runs next,
also outside the `try`: if it throws, the `finally` of the later `try` is
never entered, so `close` is not called.  Otherwise the dispatch result or
its caught error is turned into the item's record, and `close` runs in the
`finally`; a close failure propagates and replaces the item's outcome. -/
def runItem (cfg : Config) (env : ItemEnv) :
    Except DriverErr OutputRecord × List Event :=
  if !env.initOk then
    (Except.error DriverErr.connection, [])
  else if cfg.pageUrl != "" && !env.gotoOk then
    (Except.error DriverErr.navigation, [Event.inited])
  else if env.closeOk then
    (Except.ok (mkRecord cfg env), [Event.inited, Event.closeCalled])
  else
    (Except.error DriverErr.closeFailure, [Event.inited, Event.closeCalled])

/-- Embedding of the `execute` batch loop: items are processed strictly
in order; an error escaping an item's processing propagates out of the
method, so the accumulated records are never returned. -/
def execute : List (Config × ItemEnv) → Except DriverErr (List OutputRecord)
  | [] => Except.ok []
  | (cfg, env) :: rest =>
    match (runItem cfg env).1 with
    | Except.error e => Except.error e
    | Except.ok r =>
      match execute rest with
      | Except.error e => Except.error e
      | Except.ok recs => Except.ok (r :: recs)

/-- Whether one item's external calls all succeed (session open,
navigation when requested, and close). -/
def goodLifecycle (p : Config × ItemEnv) : Bool :=
  p.2.initOk && (p.1.pageUrl == "" || p.2.gotoOk) && p.2.closeOk

/-- The records of a batch outcome, `none` when the run threw. -/
def okRecords : Except DriverErr (List OutputRecord) → Option (List OutputRecord)
  | Except.ok l => some l
  | Except.error _ => none

/-- The `usage` field of an item's record, `none` when the item threw. -/
def itemUsage (cfg : Config) (env : ItemEnv) : Option UsageTotals :=
  match (runItem cfg env).1 with
  | Except.ok r => r.usage
  | Except.error _ => none

/-- The `messages` field of an item's record, `none` when absent or when
the item threw. -/
def itemMessagesOut (cfg : Config) (env : ItemEnv) :
    Option (List SanitizedMsg) :=
  match (runItem cfg env).1 with
  | Except.ok r => r.messagesOut
  | Except.error _ => none

/-! ## Helper lemmas -/

theorem splitNlChars_ne_nil : ∀ l : List Char, splitNlChars l ≠ []
  | [] => by simp [splitNlChars]
  | c :: rest => by
    simp only [splitNlChars]
    by_cases h : c = '\n'
    · simp [h]
    · simp only [h, if_false]
      cases splitNlChars rest <;> simp

theorem jsSplitNewline_ne_nil (s : String) : jsSplitNewline s ≠ [] := by
  simp [jsSplitNewline, splitNlChars_ne_nil]

theorem length_pos_of_ne_empty (s : String) (h : s ≠ "") : 0 < s.length := by
  rcases s with ⟨data⟩
  cases data with
  | nil => exact absurd rfl h
  | cons c cs => simp [String.length]

/-! ## C4: instruction line for extract/observe -/

/-- C4 counterexample: on a block beginning with a blank line the code
passes the empty instruction, not the first non-empty line of the block
(which the spec names and which is "Click A" here). -/
theorem c4_first_line_cex :
    firstLineInstruction "\nClick A" = "" ∧
    specFirstNonEmptyLine "\nClick A" = "Click A" := by
  constructor <;> decide

/-- C4 (amended): the extract and observe operations pass the trimmed
first line of the instructions block as the single instruction; this
equals the first non-empty line whenever the first line does not trim to
empty, but a block beginning with blank lines yields the empty
instruction instead of the first non-empty line. -/
theorem c4_first_line_trimmed (s : String) :
    firstLineInstruction s = jsTrim ((jsSplitNewline s).headD "") ∧
    (jsTrim ((jsSplitNewline s).headD "") ≠ "" →
      firstLineInstruction s = specFirstNonEmptyLine s) := by
  have hfl : firstLineInstruction s = jsTrim ((jsSplitNewline s).headD "") := by
    have hor : ∀ a : String, jsOrString a "" = a := by
      intro a
      by_cases h : a = "" <;> simp [jsOrString, h]
    simpa [firstLineInstruction] using hor _
  refine ⟨hfl, fun h => ?_⟩
  obtain ⟨l0, tl, hsp⟩ :=
    List.exists_cons_of_ne_nil (jsSplitNewline_ne_nil s)
  rw [hsp] at h hfl
  simp only [List.headD_cons] at h hfl
  have hlen : 0 < (jsTrim l0).length := length_pos_of_ne_empty _ h
  rw [hfl]
  simp [specFirstNonEmptyLine, hsp, List.filter_cons, hlen]

/-- C4 witness: at a block whose first line is non-blank, the code's
instruction agrees with the first non-empty line the claim names. -/
theorem c4_first_line_trimmed_witness :
    firstLineInstruction "Click A\nIgnored" =
      specFirstNonEmptyLine "Click A\nIgnored" :=
  (c4_first_line_trimmed "Click A\nIgnored").2 (by decide)

/-! ## C2: close attempts -/

/-- Configuration with a navigation target, used as the C2 counterexample. -/
def cexNavCfg : Config := ⟨Op.act, "https://example.com", false⟩

/-- Environment where the session opens but navigation fails. -/
def cexNavEnv : ItemEnv := ⟨true, false, true, true, []⟩

/-- C2 counterexample: with a page URL set, when `goto` fails after the
session was opened the item exits with the navigation error without ever
attempting to close the session, because the navigation runs before the
`try` whose `finally` holds the close call. -/
theorem c2_nav_skips_close_cex :
    (runItem cexNavCfg cexNavEnv).1 = Except.error DriverErr.navigation ∧
    (runItem cexNavCfg cexNavEnv).2.count Event.inited = 1 ∧
    (runItem cexNavCfg cexNavEnv).2.count Event.closeCalled = 0 := by
  refine ⟨rfl, ?_, ?_⟩ <;> decide

/-- C2 (amended): closing is attempted exactly once for every item whose
session was opened and whose navigation did not fail (on the success path
and when dispatch throws alike); an item whose navigation fails after the
session opened never attempts the close, and an item whose open failed
attempts nothing. -/
theorem c2_close_count (cfg : Config) (env : ItemEnv) :
    (runItem cfg env).2.count Event.closeCalled =
      if env.initOk && (cfg.pageUrl == "" || env.gotoOk) then 1 else 0 := by
  rcases env with ⟨i, g, d, c, em⟩
  by_cases h : cfg.pageUrl = "" <;>
    cases i <;> cases g <;> cases c <;>
      simp [runItem, h, List.count_cons, List.count_nil]

/-! ## C3: close failures -/

/-- Configuration without navigation, shared by the C3 scenarios. -/
def c3Cfg : Config := ⟨Op.act, "", false⟩

/-- Environment where every external call succeeds. -/
def c3EnvGood : ItemEnv := ⟨true, true, true, true, []⟩

/-- Environment where everything succeeds except the final close. -/
def c3EnvBadClose : ItemEnv := ⟨true, true, true, false, []⟩

/-- C3 counterexample: the item's record is the same whether or not the
close succeeds, but when close throws the item's outcome becomes the
close error instead of that record, and a three-item batch containing the
item returns no output at all instead of continuing. -/
theorem c3_close_failure_cex :
    mkRecord c3Cfg c3EnvBadClose = mkRecord c3Cfg c3EnvGood ∧
    (runItem c3Cfg c3EnvGood).1 = Except.ok (mkRecord c3Cfg c3EnvGood) ∧
    (runItem c3Cfg c3EnvBadClose).1 = Except.error DriverErr.closeFailure ∧
    okRecords (execute
      [(c3Cfg, c3EnvGood), (c3Cfg, c3EnvBadClose), (c3Cfg, c3EnvGood)]) =
      none := by
  refine ⟨?_, rfl, rfl, rfl⟩
  decide

/-- C3 (amended): a failure of `Session.close` is not best-effort: for
any item that reached the close call, a close failure replaces the item's
already-determined result with the close error, and the batch stops with
that error instead of continuing. -/
theorem c3_close_failure_propagates (cfg : Config) (env : ItemEnv)
    (hi : env.initOk = true) (hg : cfg.pageUrl = "" ∨ env.gotoOk = true)
    (hc : env.closeOk = false) :
    (runItem cfg env).1 = Except.error DriverErr.closeFailure ∧
    ∀ rest, execute ((cfg, env) :: rest) =
      Except.error DriverErr.closeFailure := by
  have h1 : (runItem cfg env).1 = Except.error DriverErr.closeFailure := by
    rcases hg with hg | hg <;> simp [runItem, hi, hc, hg]
  refine ⟨h1, fun rest => ?_⟩
  simp [execute, h1]

/-- C3 witness: the amended claim at a concrete item whose close fails. -/
theorem c3_close_failure_propagates_witness :
    (runItem c3Cfg c3EnvBadClose).1 = Except.error DriverErr.closeFailure ∧
    execute [(c3Cfg, c3EnvBadClose)] = Except.error DriverErr.closeFailure := by
  have h := c3_close_failure_propagates c3Cfg c3EnvBadClose (by decide)
    (Or.inl (by decide)) (by decide)
  exact ⟨h.1, h.2 []⟩

/-! ## C10: disabled log capture -/

/-- C10: with the log-messages option disabled no logger callback is
installed, so the captured buffer stays empty for the whole item and the
item's record carries no usage totals (the agent branch aggregates over
the empty buffer) and no messages field, whatever the engine emitted. -/
theorem c10_log_disabled_no_usage (op : Op) (url : String) (env : ItemEnv) :
    capturedMessages ⟨op, url, false⟩ env = [] ∧
    itemUsage ⟨op, url, false⟩ env = none ∧
    itemMessagesOut ⟨op, url, false⟩ env = none := by
  refine ⟨rfl, ?_, ?_⟩ <;>
  · rcases env with ⟨i, g, d, c, em⟩
    by_cases h : url = "" <;>
      cases i <;> cases g <;> cases c <;> cases d <;>
        simp [itemUsage, itemMessagesOut, runItem, mkRecord,
          capturedMessages, extractUsageFromMessages, h]

/-! ## C5: act instruction sequencing -/

theorem runAct_map_fst {σ α : Type} (act : String → σ → α × σ) :
    ∀ (l : List String) (s : σ), (runAct act s l).1.map Prod.fst = l := by
  intro l
  induction l with
  | nil => intro s; rfl
  | cons i rest ih => intro s; simp [runAct, ih]

theorem runAct_final_state {σ α : Type} (act : String → σ → α × σ) :
    ∀ (l : List String) (s : σ), (runAct act s l).2 = stateAfter act s l := by
  intro l
  induction l with
  | nil => intro s; rfl
  | cons i rest ih => intro s; simp [runAct, stateAfter, List.foldl_cons, ih]

theorem runAct_getElem {σ α : Type} (act : String → σ → α × σ) :
    ∀ (l : List String) (s : σ) (n : Nat),
      (runAct act s l).1[n]? =
        (l[n]?).map
          (fun i => (i, (act i (stateAfter act s (l.take n))).1)) := by
  intro l
  induction l with
  | nil => intro s n; rfl
  | cons i rest ih =>
    intro s n
    cases n with
    | zero => simp [runAct, stateAfter]
    | succ m => simp [runAct, stateAfter, List.foldl_cons, ih]

/-- C5: the act operation splits the instructions block on newlines,
trims each line and drops the empty ones; the remaining instructions are
executed strictly in sequence (each against the session state left by the
previous ones) and the driver collects the `(instruction, result)` pairs
in execution order; in particular the block with a blank middle line
yields exactly the two executions "Click A" then "Type B". -/
theorem c5_act_sequential {σ α : Type} (act : String → σ → α × σ)
    (s0 : σ) (block : String) :
    ((runAct act s0 (parseActInstructions block)).1.map Prod.fst =
        parseActInstructions block) ∧
    ((runAct act s0 (parseActInstructions block)).2 =
        stateAfter act s0 (parseActInstructions block)) ∧
    (∀ n : Nat,
      (runAct act s0 (parseActInstructions block)).1[n]? =
        ((parseActInstructions block)[n]?).map
          (fun i =>
            (i, (act i (stateAfter act s0
                  ((parseActInstructions block).take n))).1))) ∧
    parseActInstructions "Click A\n\nType B\n" = ["Click A", "Type B"] :=
  ⟨runAct_map_fst act _ s0, runAct_final_state act _ s0,
    runAct_getElem act _ s0, by decide⟩

/-! ## C7: output message filtering -/

theorem keepMsg_eq_true_iff (m : LogLine) :
    keepMsg m = true ↔
      jsIncludes (serializeLogLine m) "image" = false ∧
      jsIncludes (serializeLogLine m) "screenshot" = false ∧
      (serializeLogLine m).length < 5000 := by
  simp [keepMsg, Bool.and_eq_true, Bool.not_eq_true', and_assoc]

/-- C7: the output filter never retains a message whose serialized form
contains an image or screenshot marker or has 5000 or more characters
(in particular any message exceeding the 5000-character threshold is
excluded); retained messages keep their relative order and are projected
to their category, message and level fields. -/
theorem c7_sanitize_spec :
    (∀ messages : List LogLine,
        (sanitizeMessages messages).Sublist (messages.map projMsg)) ∧
    (∀ (messages : List LogLine) (r : SanitizedMsg),
        r ∈ sanitizeMessages messages →
        ∃ m, m ∈ messages ∧ r = projMsg m ∧
          jsIncludes (serializeLogLine m) "image" = false ∧
          jsIncludes (serializeLogLine m) "screenshot" = false ∧
          (serializeLogLine m).length < 5000) ∧
    (∀ m : LogLine,
        (jsIncludes (serializeLogLine m) "image" = true ∨
         jsIncludes (serializeLogLine m) "screenshot" = true ∨
         5000 < (serializeLogLine m).length) →
        sanitizeMessages [m] = []) := by
  refine ⟨?_, ?_, ?_⟩
  · intro messages
    exact List.Sublist.map projMsg (List.filter_sublist messages)
  · intro messages r hr
    simp only [sanitizeMessages, List.mem_map, List.mem_filter] at hr
    obtain ⟨m, ⟨hm, hk⟩, hp⟩ := hr
    obtain ⟨h1, h2, h3⟩ := (keepMsg_eq_true_iff m).mp hk
    exact ⟨m, hm, hp.symm, h1, h2, h3⟩
  · intro m h
    have hk : keepMsg m = false := by
      rcases h with h | h | h
      · simp [keepMsg, h]
      · simp [keepMsg, h]
      · simp [keepMsg, Nat.lt_asymm h]
    simp [sanitizeMessages, List.filter_cons, hk]

/-- Message whose serialized form contains the screenshot marker. -/
def c7MarkedMsg : LogLine := ⟨"llm", "captured screenshot", 1, none⟩

/-- C7 witness: the filter at a concrete message carrying a screenshot
marker in its serialized form. -/
theorem c7_sanitize_spec_witness : sanitizeMessages [c7MarkedMsg] = [] :=
  c7_sanitize_spec.2.2 c7MarkedMsg (Or.inr (Or.inl (by decide)))

/-! ## C6: usage aggregation -/

theorem foldl_usageStep (messages : List LogLine) :
    ∀ acc : UsageAcc,
      messages.foldl usageStep acc =
        ⟨acc.totalPrompt + (sum3 (messages.filterMap msgUsage)).1,
         acc.totalCompletion + (sum3 (messages.filterMap msgUsage)).2.1,
         acc.totalTokens + (sum3 (messages.filterMap msgUsage)).2.2,
         acc.found || messages.any (fun m => (msgUsage m).isSome)⟩ := by
  induction messages with
  | nil => intro acc; simp [sum3]
  | cons m rest ih =>
    intro acc
    simp only [List.foldl_cons, List.filterMap_cons, List.any_cons, ih]
    cases hm : msgUsage m with
    | none => simp [usageStep, hm]
    | some triple =>
      obtain ⟨p, c, t⟩ := triple
      simp [usageStep, hm, sum3, Nat.add_assoc]

theorem extractUsage_characterization (messages : List LogLine) :
    extractUsageFromMessages messages =
      if messages.any (fun m => (msgUsage m).isSome) then
        some ⟨(sum3 (messages.filterMap msgUsage)).1,
              (sum3 (messages.filterMap msgUsage)).2.1,
              (sum3 (messages.filterMap msgUsage)).2.2⟩
      else none := by
  simp [extractUsageFromMessages, foldl_usageStep]

/-- C6: usage aggregation contributes only from messages of the `aisdk`
category, reads the counters accepting both snake_case and camelCase
spellings, sums the three counters over all messages yielding a usage
object, returns absent when none did (in particular on the empty
sequence), and a message contributing nothing — malformed payloads
included — can be removed without changing the result, so a malformed
payload never aborts aggregation over the remaining messages. -/
theorem c6_usage_spec :
    (∀ messages : List LogLine,
        extractUsageFromMessages messages =
          if messages.any (fun m => (msgUsage m).isSome) then
            some ⟨(sum3 (messages.filterMap msgUsage)).1,
                  (sum3 (messages.filterMap msgUsage)).2.1,
                  (sum3 (messages.filterMap msgUsage)).2.2⟩
          else none) ∧
    extractUsageFromMessages [] = none ∧
    (∀ m : LogLine, m.category ≠ "aisdk" → msgUsage m = none) ∧
    (∀ (pre : List LogLine) (m : LogLine) (post : List LogLine),
        msgUsage m = none →
        extractUsageFromMessages (pre ++ m :: post) =
          extractUsageFromMessages (pre ++ post)) ∧
    (∀ (p c t : Nat) (text : String),
        msgUsage ⟨"aisdk", "", 0,
            some ⟨some ⟨AuxPayload.parsed
              (some ⟨some p, none, some c, none, some t, none⟩) text⟩⟩⟩ =
          some (p, c, t) ∧
        msgUsage ⟨"aisdk", "", 0,
            some ⟨some ⟨AuxPayload.parsed
              (some ⟨none, some p, none, some c, none, some t⟩) text⟩⟩⟩ =
          some (p, c, t)) := by
  refine ⟨extractUsage_characterization, rfl, ?_, ?_, ?_⟩
  · intro m h
    simp [msgUsage, h]
  · intro pre m post h
    simp [extractUsage_characterization, List.filterMap_append,
      List.filterMap_cons, List.any_append, List.any_cons, h]
  · intro p c t text
    constructor <;>
      cases p <;> cases c <;> cases t <;>
        simp [msgUsage, jsOrNat, jsTruthyNat]

/-- Well-formed usage message carrying the counters 3, 4, 7. -/
def c6GoodMsg : LogLine :=
  ⟨"aisdk", "", 0,
    some ⟨some ⟨AuxPayload.parsed
      (some ⟨some 3, none, some 4, none, some 7, none⟩) "payload"⟩⟩⟩

/-- Usage message whose payload `JSON.parse` rejects. -/
def c6BadMsg : LogLine :=
  ⟨"aisdk", "", 0, some ⟨some ⟨AuxPayload.malformed "not json"⟩⟩⟩

/-- C6 witness: dropping a concrete malformed message does not change the
aggregate, and a concrete non-`aisdk` message contributes nothing. -/
theorem c6_usage_spec_witness :
    extractUsageFromMessages [c6BadMsg, c6GoodMsg] =
      extractUsageFromMessages [c6GoodMsg] ∧
    msgUsage (⟨"browser", "navigated", 0, none⟩ : LogLine) = none := by
  constructor
  · exact c6_usage_spec.2.2.2.1 [] c6BadMsg [c6GoodMsg] (by decide)
  · exact c6_usage_spec.2.2.1 _ (by decide)

/-! ## C8: field-list schema resolution -/

theorem setKey_fresh (shape : List (String × ZType)) (k : String) (v : ZType)
    (h : shape.any (fun p => p.1 == k) = false) :
    setKey shape k v = shape ++ [(k, v)] := by
  simp [setKey, h]

theorem foldl_setKey_fresh (fields : List Field) :
    ∀ shape : List (String × ZType),
      (∀ f ∈ fields, shape.any (fun p => p.1 == f.fieldName) = false) →
      (fields.map Field.fieldName).Nodup →
      fields.foldl (fun sh f => setKey sh f.fieldName (fieldEntry f).2) shape =
        shape ++ fields.map fieldEntry := by
  induction fields with
  | nil => intro shape _ _; simp
  | cons f rest ih =>
    intro shape hfresh hnd
    simp only [List.map_cons, List.nodup_cons] at hnd
    have hstep : setKey shape f.fieldName (fieldEntry f).2 =
        shape ++ [fieldEntry f] :=
      setKey_fresh shape f.fieldName _ (hfresh f (List.mem_cons_self f rest))
    have hfresh2 : ∀ g ∈ rest,
        (shape ++ [fieldEntry f]).any (fun p => p.1 == g.fieldName) = false := by
      intro g hg
      have hne : f.fieldName ≠ g.fieldName := by
        intro hcontra
        exact hnd.1 (hcontra ▸ List.mem_map_of_mem Field.fieldName hg)
      simp [List.any_append, hfresh g (List.mem_cons_of_mem f hg),
        fieldEntry, hne]
    simp only [List.foldl_cons, hstep, ih (shape ++ [fieldEntry f]) hfresh2 hnd.2,
      List.append_assoc, List.singleton_append, List.map_cons]

theorem fieldsToZodSchema_eq_map (fields : List Field)
    (hnd : (fields.map Field.fieldName).Nodup) :
    fieldsToZodSchema fields = fields.map fieldEntry := by
  have h := foldl_setKey_fresh fields [] (by intro f _; rfl) hnd
  simpa [fieldsToZodSchema] using h

theorem lookup_fieldEntries (fields : List Field) :
    (fields.map Field.fieldName).Nodup →
    ∀ f ∈ fields,
      List.lookup f.fieldName (fields.map fieldEntry) =
        some (fieldEntry f).2 := by
  induction fields with
  | nil => intro _ f hf; exact absurd hf (List.not_mem_nil f)
  | cons g rest ih =>
    intro hnd f hf
    simp only [List.map_cons, List.nodup_cons] at hnd
    rcases List.mem_cons.mp hf with hfg | hfr
    · subst hfg
      simp [List.lookup, fieldEntry]
    · have hne : f.fieldName ≠ g.fieldName := by
        intro hcontra
        exact hnd.1 (hcontra ▸ List.mem_map_of_mem Field.fieldName hfr)
      have hbeq : (f.fieldName == g.fieldName) = false :=
        beq_eq_false_iff_ne.mpr hne
      simp only [List.lookup, fieldEntry, hbeq]
      exact ih hnd.2 f hfr

/-- C8: for a field list with unique non-empty names the resolved object
shape has exactly the given field names in order, each name mapped to the
zod type for its kind wrapped as optional exactly when the descriptor is
marked optional, and an unknown kind maps to the unconstrained any
type. -/
theorem c8_fields_schema (fields : List Field)
    (hnd : (fields.map Field.fieldName).Nodup)
    (hne : ∀ f ∈ fields, f.fieldName ≠ "") :
    fieldsToZodSchema fields = fields.map fieldEntry ∧
    (fieldsToZodSchema fields).map Prod.fst = fields.map Field.fieldName ∧
    (∀ f ∈ fields,
      List.lookup f.fieldName (fieldsToZodSchema fields) =
        some (fieldEntry f).2) ∧
    (∀ kind : String,
      kind ∉ (["string", "number", "boolean", "array", "object"] : List String) →
      typeForKind kind = ZType.zany) := by
  have heq := fieldsToZodSchema_eq_map fields hnd
  refine ⟨heq, ?_, ?_, ?_⟩
  · rw [heq, List.map_map]
    rfl
  · intro f hf
    rw [heq]
    exact lookup_fieldEntries fields hnd f hf
  · intro kind hk
    simp only [List.mem_cons, List.mem_singleton, not_or] at hk
    obtain ⟨h1, h2, h3, h4, h5⟩ := hk
    simp [typeForKind, h1, h2, h3, h4, h5]

/-- Concrete field list with a string, an optional array, and an unknown
kind. -/
def c8Fields : List Field :=
  [⟨"title", "string", false⟩, ⟨"tags", "array", true⟩,
   ⟨"meta", "custom", false⟩]

/-- C8 witness: the schema shape at a concrete field list, and the entry
looked up for its optional array field. -/
theorem c8_fields_schema_witness :
    fieldsToZodSchema c8Fields = c8Fields.map fieldEntry ∧
    List.lookup "tags" (fieldsToZodSchema c8Fields) =
      some (ZType.zoptional ZType.zarrayAny) := by
  have h := c8_fields_schema c8Fields (by decide) (by decide)
  refine ⟨h.1, ?_⟩
  have h2 := h.2.2.1 (⟨"tags", "array", true⟩ : Field) (by decide)
  simpa [fieldEntry, typeForKind] using h2

/-! ## C1: batch shape and error isolation -/

theorem runItem_good (cfg : Config) (env : ItemEnv)
    (h : goodLifecycle (cfg, env) = true) :
    runItem cfg env =
      (Except.ok (mkRecord cfg env), [Event.inited, Event.closeCalled]) := by
  simp only [goodLifecycle, Bool.and_eq_true] at h
  obtain ⟨⟨hi, hgo⟩, hc⟩ := h
  rw [Bool.or_eq_true] at hgo
  rcases hgo with hg | hg
  · have hurl : cfg.pageUrl = "" := by simpa using hg
    simp [runItem, hi, hc, hurl]
  · simp [runItem, hi, hc, hg]

/-- C1 (amended): when every item's session open, navigation and close
succeed, the run returns exactly one output record per input item in
input order (a dispatch failure yields that item's error record only);
but an item whose session open fails does not get an error record — the
connection error propagates and aborts the whole run, losing all
records. -/
theorem c1_batch_records :
    (∀ batch : List (Config × ItemEnv),
        (∀ p ∈ batch, goodLifecycle p = true) →
        execute batch =
          Except.ok (batch.map (fun p => mkRecord p.1 p.2))) ∧
    (∀ (pre : List (Config × ItemEnv)) (cfg : Config) (env : ItemEnv)
        (post : List (Config × ItemEnv)),
        (∀ p ∈ pre, goodLifecycle p = true) → env.initOk = false →
        execute (pre ++ (cfg, env) :: post) =
          Except.error DriverErr.connection) := by
  constructor
  · intro batch
    induction batch with
    | nil => intro _; rfl
    | cons p rest ih =>
      intro hgood
      obtain ⟨cfg, env⟩ := p
      have h1 := runItem_good cfg env (hgood _ (List.mem_cons_self _ rest))
      have h2 := ih (fun q hq => hgood q (List.mem_cons_of_mem _ hq))
      simp [execute, h1, h2]
  · intro pre cfg env post hgood hinit
    induction pre with
    | nil =>
      simp [execute, runItem, hinit]
    | cons p rest ih =>
      obtain ⟨cfg2, env2⟩ := p
      have h1 := runItem_good cfg2 env2 (hgood _ (List.mem_cons_self _ rest))
      have h2 := ih (fun q hq => hgood q (List.mem_cons_of_mem _ hq))
      simp [execute, h1, h2]

/-- Configuration and environments for the C1 scenarios. -/
def c1Cfg : Config := ⟨Op.act, "", false⟩

/-- Environment for an item whose calls all succeed. -/
def c1GoodEnv : ItemEnv := ⟨true, true, true, true, []⟩

/-- Environment for an item whose session open fails. -/
def c1BadInitEnv : ItemEnv := ⟨false, true, true, true, []⟩

/-- Environment for an item whose dispatch throws. -/
def c1BadDispatchEnv : ItemEnv := ⟨true, true, false, true, []⟩

/-- C1 counterexample: in a batch of three items where the middle item's
session open fails, the run does not produce three records with an error
record in the middle — it produces no records at all, returning the
connection error. -/
theorem c1_connection_aborts_batch_cex :
    execute [(c1Cfg, c1GoodEnv), (c1Cfg, c1BadInitEnv), (c1Cfg, c1GoodEnv)] =
      Except.error DriverErr.connection ∧
    okRecords (execute
      [(c1Cfg, c1GoodEnv), (c1Cfg, c1BadInitEnv), (c1Cfg, c1GoodEnv)]) =
      none := by
  exact ⟨rfl, rfl⟩

/-- C1 witness: a concrete two-item batch whose lifecycles succeed gets
one record per item in order even though the second item's dispatch
throws, and prefixing a concrete open-failing item aborts the run. -/
theorem c1_batch_records_witness :
    execute [(c1Cfg, c1GoodEnv), (c1Cfg, c1BadDispatchEnv)] =
      Except.ok
        ([(c1Cfg, c1GoodEnv), (c1Cfg, c1BadDispatchEnv)].map
          (fun p => mkRecord p.1 p.2)) ∧
    execute ([(c1Cfg, c1GoodEnv)] ++ (c1Cfg, c1BadInitEnv) :: []) =
      Except.error DriverErr.connection :=
  ⟨c1_batch_records.1 [(c1Cfg, c1GoodEnv), (c1Cfg, c1BadDispatchEnv)]
      (by decide),
   c1_batch_records.2 [(c1Cfg, c1GoodEnv)] c1Cfg c1BadInitEnv []
      (by decide) (by decide)⟩

end StagehandNode
